import Mathlib

/-!
Shallow embedding of the Beyla process-tracer orchestrator core:
* `pkg/internal/ebpf` ProcessTracer (`NewProcessTracer`, `loadTracers`,
  `NewExecutable`, `NewExecutableInstance`, `UnlinkExecutable`)
* `pkg/internal/ebpf/gotracer` (`Load`, `Constants`, `GoProbes`,
  `supportsContextPropagation`)
* `pkg/internal/imetrics` Prometheus reporter (`TracerFlush`,
  `pipelineBufferLengths`)

Go slices are Lean lists, Go maps are association lists whose keys are
unique, `io.Closer` handles and module inodes are natural-number
identifiers, and the side effects of an operation (calls to `Close`,
`UnlinkInstrumentedLib`, log lines) are reified as an emitted event list.
-/

namespace Beyla

/-- A scoped holder of attachment handles, mirroring the Go `instrumenter`
struct: `closables []io.Closer` (insertion-ordered) and
`modules map[uint64]struct{}` (a set of module inodes). Closers and inodes
are identified by naturals. -/
structure Instr where
  closables : List Nat
  modules : List Nat
deriving DecidableEq, Repr

/-- The `ProcessTracer` state relevant to executable bookkeeping:
`Programs` is kept as its length (bundles are addressed by index), and
`Instrumentables map[uint64]*instrumenter` is an association list with
unique keys. -/
structure ProcessTracer where
  numPrograms : Nat
  instrumentables : List (Nat × Instr)
deriving DecidableEq, Repr

/-- Observable side effects of orchestrator operations. -/
inductive Event where
  /-- `c.Close()` was invoked on closable `c`. -/
  | closeCall (c : Nat) : Event
  /-- `Close` returned an error and the debug line `Unable to close on unlink`
  was logged for closable `c`. -/
  | closeErrLogged (c : Nat) : Event
  /-- `p.UnlinkInstrumentedLib(ino)` was invoked on the bundle at index
  `prog` for module inode `ino`. -/
  | unlinkLib (prog : Nat) (ino : Nat) : Event
  /-- The warning `Unable to find executable to unlink` was logged. -/
  | warnUnknownUnlink (ino : Nat) : Event
deriving DecidableEq, Repr

/-- Go `delete(m, k)`: remove the binding for `k` (keys are unique in a Go
map, so filtering every match agrees with deleting the one entry). -/
def mapErase (k : Nat) (m : List (Nat × Instr)) : List (Nat × Instr) :=
  m.filter (fun kv => kv.1 != k)

/-- Go `m[k] = v`: bind `k` to `v`, replacing any previous binding. -/
def mapInsert (k : Nat) (v : Instr) (m : List (Nat × Instr)) : List (Nat × Instr) :=
  (k, v) :: mapErase k m

/-- The closing loop of `UnlinkExecutable`:
`for _, c := range i.closables { if err := c.Close(); err != nil { log } }`.
`closeErr c = true` means `c.Close()` returns a non-nil error. -/
def closeEvents (closeErr : Nat → Bool) : List Nat → List Event
  | [] => []
  | c :: cs =>
    Event.closeCall c ::
      ((if closeErr c then [Event.closeErrLogged c] else []) ++ closeEvents closeErr cs)

/-- The module-teardown loop of `UnlinkExecutable`:
`for ino := range i.modules { for _, p := range pt.Programs { p.UnlinkInstrumentedLib(ino) } }`. -/
def unlinkLibEvents (numProgs : Nat) (modules : List Nat) : List Event :=
  modules.flatMap (fun m => (List.range numProgs).map (fun j => Event.unlinkLib j m))

/-- `(*ProcessTracer).UnlinkExecutable`: if the inode is known, close every
closable (logging failures), signal `UnlinkInstrumentedLib` for every
recorded module on every bundle, and delete the map entry; otherwise warn.
The function returns nothing in Go; here it returns the new state plus the
emitted events. -/
def UnlinkExecutable (closeErr : Nat → Bool) (pt : ProcessTracer) (ino : Nat) :
    ProcessTracer × List Event :=
  match (pt.instrumentables.lookup ino : Option Instr) with
  | some i =>
    ({ pt with instrumentables := mapErase ino pt.instrumentables },
      closeEvents closeErr i.closables ++ unlinkLibEvents pt.numPrograms i.modules)
  | none => (pt, [Event.warnUnknownUnlink ino])

/-- The subsequence of closables on which `Close` was called, in call order. -/
def closeCalls (evs : List Event) : List Nat :=
  evs.filterMap (fun e => match e with | Event.closeCall c => some c | _ => none)

/-! ### Attachment (`NewExecutable`, `NewExecutableInstance`)

The bodies of `instrumenter.goprobes` and `instrumenter.uprobes` are outside
the shown sources; per the spec (§4.2) each call attaches probes for one
bundle, appends the release handle of every successful attachment to
`closables`, records shared-library module inodes in `modules`, and may
fail after some appends ("On any error during a batch, already-appended
handles remain live"). An `AttachOutcome` abstracts one such call. -/

/-- Modelled from the spec: the outcome of one `goprobes`/`uprobes` call on
one bundle — the release handles appended to `closables` (in order), the
module inodes recorded in `modules`, and whether the call ends in an error
(after the appends). -/
structure AttachOutcome where
  appended : List Nat
  mods : List Nat
  failed : Bool
deriving DecidableEq, Repr

/-- `map[uint64]struct{}` insertion: adding an already-present inode is a
no-op. -/
def addModule (m : Nat) (ms : List Nat) : List Nat :=
  if m ∈ ms then ms else ms ++ [m]

/-- Apply one attach call's outcome to an instrumenter. -/
def applyOutcome (i : Instr) (o : AttachOutcome) : Instr :=
  { closables := i.closables ++ o.appended
    modules := o.mods.foldl (fun acc m => addModule m acc) i.modules }

/-- The per-bundle loop of `NewExecutable`: for each bundle, `goprobes`
then `uprobes`; the first error stops the loop (the Go code `return err`s),
keeping the instrumenter state accumulated so far. Returns the accumulated
instrumenter and whether an error was returned. -/
def attachLoop (i : Instr) : List (AttachOutcome × AttachOutcome) → Instr × Bool
  | [] => (i, false)
  | (g, u) :: rest =>
    let i1 := applyOutcome i g
    if g.failed then (i1, true)
    else
      let i2 := applyOutcome i1 u
      if u.failed then (i2, true) else attachLoop i2 rest

/-- `(*ProcessTracer).NewExecutable`: build a fresh instrumenter, run
goprobes and uprobes for every bundle, and only on full success store it
under the executable's inode (`pt.Instrumentables[ie.FileInfo.Ino] = &i` is
the last statement, not reached on error). Returns the new tracer state,
whether an error was returned, and the local instrumenter value at exit
(which the Go code drops on error). `outs` gives the two attach outcomes
for each bundle, in bundle order. -/
def NewExecutable (outs : List (AttachOutcome × AttachOutcome)) (pt : ProcessTracer)
    (ino : Nat) : ProcessTracer × Bool × Instr :=
  let r := attachLoop ⟨[], []⟩ outs
  if r.2 then (pt, true, r.1)
  else ({ pt with instrumentables := mapInsert ino r.1 pt.instrumentables }, false, r.1)

/-- The uprobes-only loop of `NewExecutableInstance`, mutating the stored
instrumenter in place (it is held by pointer), so appends made before an
error persist. -/
def attachLoopU (i : Instr) : List AttachOutcome → Instr × Bool
  | [] => (i, false)
  | u :: rest =>
    let i1 := applyOutcome i u
    if u.failed then (i1, true) else attachLoopU i1 rest

/-- `(*ProcessTracer).NewExecutableInstance`: if the inode is known, attach
uprobes for each bundle on the stored instrumenter; otherwise warn
(`Attempted to update non-existent tracer`) and return nil. -/
def NewExecutableInstance (outs : List AttachOutcome) (pt : ProcessTracer)
    (ino : Nat) : ProcessTracer × Bool :=
  match (pt.instrumentables.lookup ino : Option Instr) with
  | some i =>
    let r := attachLoopU i outs
    ({ pt with instrumentables := mapInsert ino r.1 pt.instrumentables }, r.2)
  | none => (pt, false)

/-! ### Bundle loading (`loadSpec`, `loadTracers`) and the integrity
override fallback -/

/-- `p == c` prefix test on character lists, the head of `strings.Contains`. -/
def matchesAt : List Char → List Char → Bool
  | [], _ => true
  | _ :: _, [] => false
  | p :: ps, c :: cs => p == c && matchesAt ps cs

/-- Substring search over character lists. -/
def containsSub (pat : List Char) : List Char → Bool
  | [] => matchesAt pat []
  | c :: cs => matchesAt pat (c :: cs) || containsSub pat cs

/-- Go `strings.Contains(s, pat)`. -/
def strContains (s pat : String) : Bool := containsSub pat.data s.data

/-- The helper-absence diagnostic tested by `loadTracers`. -/
def helperMsg : String := "unknown func bpf_probe_write_user"

/-- One bundle's loading behaviour, abstracting the `Tracer` interface:
`load` is `p.Load()` (it reads the integrity-override flag, hence the
`Bool` argument), `rewrite` is `spec.RewriteConstants(p.Constants())`, and
`assign` is `spec.LoadAndAssign` (deterministic in the spec value).
Specs are abstract values (`Nat`), errors are their diagnostic strings. -/
structure ProgModel where
  load : Bool → Except String Nat
  rewrite : Nat → Except String Unit
  assign : Nat → Except String Unit

/-- `(*ProcessTracer).loadSpec`: `p.Load()` then `RewriteConstants`,
wrapping errors as the Go code does. -/
def loadSpecP (p : ProgModel) (override : Bool) : Except String Nat :=
  match p.load override with
  | Except.error e => Except.error ("loading eBPF program: " ++ e)
  | Except.ok s =>
    match p.rewrite s with
    | Except.error e => Except.error ("rewriting BPF constants definition: " ++ e)
    | Except.ok _ => Except.ok s

/-- The per-bundle body of `loadTracers`: `loadSpec`, `LoadAndAssign`, and
on a `LoadAndAssign` failure whose text contains `helperMsg`, set the
process-wide `IntegrityModeOverride` flag and retry `loadSpec` +
`LoadAndAssign` once. Returns the flag after the call, the result, and the
number of full load attempts (`loadSpec` invocations) made. -/
def loadOneTracer (p : ProgModel) (override : Bool) :
    Bool × Except String Unit × Nat :=
  match loadSpecP p override with
  | Except.error e => (override, Except.error e, 1)
  | Except.ok s =>
    match p.assign s with
    | Except.ok _ => (override, Except.ok (), 1)
    | Except.error e =>
      if strContains e helperMsg then
        match loadSpecP p true with
        | Except.error e2 =>
          (true, Except.error ("loading and assigning BPF objects: " ++ e2), 2)
        | Except.ok s2 =>
          match p.assign s2 with
          | Except.ok _ => (true, Except.ok (), 2)
          | Except.error e3 =>
            (true, Except.error ("loading and assigning BPF objects: " ++ e3), 2)
      else (override, Except.error ("loading and assigning BPF objects: " ++ e), 1)

/-- The bundle loop of `loadTracers`, threading the process-wide flag; the
first error stops the loop. (The kprobe/tracepoint/sockfilter attachment
steps do not touch the flag or the instrumentables map and are elided.) -/
def loadTracersFlag : List ProgModel → Bool → Bool × Except String Unit
  | [], ov => (ov, Except.ok ())
  | p :: ps, ov =>
    let r := loadOneTracer p ov
    match r.2.1 with
    | Except.error e => (r.1, Except.error e)
    | Except.ok _ => loadTracersFlag ps r.1

/-! ### The Go tracer bundle (`pkg/internal/ebpf/gotracer`) -/

/-- `common.IntegrityModeOverride`-gated capability check:
`!ebpfcommon.IntegrityModeOverride && ebpfcommon.SupportsContextPropagation(p.log)`.
The kernel-side probe result is the abstract boolean `kernelSupports`. -/
def supportsContextPropagation (integrityModeOverride kernelSupports : Bool) : Bool :=
  !integrityModeOverride && kernelSupports

/-- The four compiled artifacts of the Go tracer. -/
inductive GoTracerArtifact where
  | bpf : GoTracerArtifact
  | bpf_debug : GoTracerArtifact
  | bpf_tp : GoTracerArtifact
  | bpf_tp_debug : GoTracerArtifact
deriving DecidableEq, Repr

/-- `(*gotracer.Tracer).Load` variant selection: start from the
non-context-propagation loader (debug or not), and switch to the `tp`
variants only when `supportsContextPropagation` holds. -/
def LoadChoice (integrityModeOverride kernelSupports bpfDebug : Bool) : GoTracerArtifact :=
  let loader := if bpfDebug then GoTracerArtifact.bpf_debug else GoTracerArtifact.bpf
  if supportsContextPropagation integrityModeOverride kernelSupports then
    if bpfDebug then GoTracerArtifact.bpf_tp_debug else GoTracerArtifact.bpf_tp
  else loader

/-- `ebpfcommon.FunctionPrograms`: the entry and optional return program of
one goprobe, named by their `bpfObjects` field. -/
structure FunctionPrograms where
  Start : Option String
  End : Option String
deriving DecidableEq, Repr

/-- The unconditional entries of `(*gotracer.Tracer).GoProbes`, in source
order (the commented-out duplicate registrations are omitted, as in the
source). -/
def goProbesBase : List (String × FunctionPrograms) :=
  [("runtime.newproc1", ⟨some "UprobeProcNewproc1", some "UprobeProcNewproc1Ret"⟩),
   ("runtime.goexit1", ⟨some "UprobeProcGoexit1", none⟩),
   ("net/http.serverHandler.ServeHTTP", ⟨some "UprobeServeHTTP", some "UprobeServeHTTPReturns"⟩),
   ("net/http.(*conn).readRequest", ⟨some "UprobeReadRequestStart", some "UprobeReadRequestReturns"⟩),
   ("net/http.(*Transport).roundTrip", ⟨some "UprobeRoundTrip", some "UprobeRoundTripReturn"⟩),
   ("golang.org/x/net/http2.(*ClientConn).roundTrip", ⟨some "UprobeHttp2RoundTrip", some "UprobeRoundTripReturn"⟩),
   ("golang.org/x/net/http2.(*ClientConn).RoundTrip", ⟨some "UprobeHttp2RoundTrip", some "UprobeRoundTripReturn"⟩),
   ("net/http.(*http2ClientConn).RoundTrip", ⟨some "UprobeHttp2RoundTrip", some "UprobeRoundTripReturn"⟩),
   ("golang.org/x/net/http2.(*responseWriterState).writeHeader", ⟨some "UprobeHttp2ResponseWriterStateWriteHeader", none⟩),
   ("net/http.(*http2responseWriterState).writeHeader", ⟨some "UprobeHttp2ResponseWriterStateWriteHeader", none⟩),
   ("net/http.(*response).WriteHeader", ⟨some "UprobeHttp2ResponseWriterStateWriteHeader", none⟩),
   ("golang.org/x/net/http2.(*serverConn).runHandler", ⟨some "UprobeHttp2serverConnRunHandler", none⟩),
   ("net/http.(*http2serverConn).runHandler", ⟨some "UprobeHttp2serverConnRunHandler", none⟩),
   ("net/http.(*conn).serve", ⟨some "UprobeConnServe", some "UprobeConnServeRet"⟩),
   ("net.(*netFD).Read", ⟨some "UprobeNetFdRead", none⟩),
   ("net/http.(*persistConn).roundTrip", ⟨some "UprobePersistConnRoundTrip", none⟩),
   ("database/sql.(*DB).queryDC", ⟨some "UprobeQueryDC", some "UprobeQueryReturn"⟩),
   ("database/sql.(*DB).execDC", ⟨some "UprobeExecDC", some "UprobeQueryReturn"⟩),
   ("google.golang.org/grpc.(*Server).handleStream", ⟨some "UprobeServerHandleStream", some "UprobeServerHandleStreamReturn"⟩),
   ("google.golang.org/grpc/internal/transport.(*http2Server).WriteStatus", ⟨some "UprobeTransportWriteStatus", none⟩),
   ("google.golang.org/grpc.(*ClientConn).Invoke", ⟨some "UprobeClientConnInvoke", some "UprobeClientConnInvokeReturn"⟩),
   ("google.golang.org/grpc.(*ClientConn).NewStream", ⟨some "UprobeClientConnNewStream", some "UprobeServerHandleStreamReturn"⟩),
   ("google.golang.org/grpc.(*ClientConn).Close", ⟨some "UprobeClientConnClose", none⟩),
   ("google.golang.org/grpc.(*clientStream).RecvMsg", ⟨none, some "UprobeClientStreamRecvMsgReturn"⟩),
   ("google.golang.org/grpc.(*clientStream).CloseSend", ⟨none, some "UprobeClientConnInvokeReturn"⟩),
   ("google.golang.org/grpc/internal/transport.(*http2Client).NewStream", ⟨some "UprobeTransportHttp2ClientNewStream", none⟩),
   ("google.golang.org/grpc/internal/transport.(*http2Server).operateHeaders", ⟨some "UprobeHttp2ServerOperateHeaders", none⟩),
   ("google.golang.org/grpc/internal/transport.(*serverHandlerTransport).HandleStreams", ⟨some "UprobeServerHandlerTransportHandleStreams", none⟩)]

/-- The entries `GoProbes` adds only when `supportsContextPropagation`. -/
def goProbesCtxProp : List (String × FunctionPrograms) :=
  [("net/http.Header.writeSubset", ⟨some "UprobeWriteSubset", none⟩),
   ("golang.org/x/net/http2.(*Framer).WriteHeaders", ⟨some "UprobeHttp2FramerWriteHeaders", some "UprobeHttp2FramerWriteHeadersReturns"⟩),
   ("net/http.(*http2Framer).WriteHeaders", ⟨some "UprobeHttp2FramerWriteHeaders", some "UprobeHttp2FramerWriteHeadersReturns"⟩)]

/-- `(*gotracer.Tracer).GoProbes`: the base probe table, plus the
context-propagation probes when `supportsContextPropagation` holds. A Go
map with distinct keys is modelled as the insertion-ordered association
list. -/
def GoProbes (integrityModeOverride kernelSupports : Bool) : List (String × FunctionPrograms) :=
  goProbesBase ++
    (if supportsContextPropagation integrityModeOverride kernelSupports then goProbesCtxProp
     else [])

/-! ### `(*gotracer.Tracer).Constants` -/

/-- The required field-offset keys, in source order. -/
def requiredKeys : List String :=
  ["url_ptr_pos", "path_ptr_pos", "method_ptr_pos", "status_code_ptr_pos",
   "content_length_ptr_pos", "req_header_ptr_pos", "io_writer_buf_ptr_pos",
   "io_writer_n_pos", "tcp_addr_port_ptr_pos", "tcp_addr_ip_ptr_pos",
   "pc_conn_pos", "pc_tls_pos", "c_rwc_pos", "c_tls_pos", "net_conn_pos",
   "conn_fd_pos", "fd_laddr_pos", "fd_raddr_pos"]

/-- The optional field-offset keys ("Optional list"), in source order. -/
def optionalKeys : List String :=
  ["cc_next_stream_id_pos", "framer_w_pos", "cc_tconn_pos", "sc_conn_pos",
   "grpc_stream_st_ptr_pos", "grpc_stream_method_ptr_pos", "grpc_status_s_pos",
   "grpc_status_code_ptr_pos", "grpc_st_conn_pos", "grpc_stream_ctx_ptr_pos",
   "grpc_t_conn_pos", "grpc_t_scheme_pos", "value_context_val_ptr_pos",
   "http2_client_next_id_pos", "grpc_transport_buf_writer_buf_pos",
   "grpc_transport_buf_writer_offset_pos"]

/-- `uint64(0xffffffffffffffff)`, the all-ones sentinel substituted for an
absent optional offset. -/
def sentinel : Nat := 0xffffffffffffffff

/-- `(*gotracer.Tracer).Constants`: the constants table as an association
list in insertion order. The Offset Provider's field map (`offsets.Field`,
a `map[string]any`) is `field : String → Option Nat`, `none` standing for
an absent key (Go `nil`); a table value of `none` is a Go `nil` entry. A
required key copies `field s` verbatim (`nil` when absent); an optional key
falls back to the all-ones sentinel when `field s` is `nil`. -/
def Constants (wakeupDataBytes : Nat) (field : String → Option Nat) :
    List (String × Option Nat) :=
  ("wakeup_data_bytes", some wakeupDataBytes) ::
    (requiredKeys.map (fun s => (s, field s)) ++
      optionalKeys.map (fun s =>
        (s, match field s with
            | some v => some v
            | none => some sentinel)))

/-- Modelled from the spec: `spec.RewriteConstants` (cilium/ebpf, outside
the shown sources) fails when a constant has no usable value — §7
`ConstantRewriteFailed — missing required constant or out-of-range value;
fatal`. A table entry whose value is Go `nil` is a missing required
constant. -/
def rewriteConstantsOk (tbl : List (String × Option Nat)) : Bool :=
  tbl.all (fun kv => kv.2.isSome)

/-- `loadSpec` for the Go tracer with the constants table made explicit:
`p.Load()` (assumed to yield a spec) followed by
`spec.RewriteConstants(p.Constants(...))`; a rewrite failure makes loading
fail with the `rewriting BPF constants definition` error. -/
def loadSpecConstants (wakeupDataBytes : Nat) (field : String → Option Nat) :
    Except String Unit :=
  if rewriteConstantsOk (Constants wakeupDataBytes field) then Except.ok ()
  else Except.error "rewriting BPF constants definition: missing required constant"

/-! ### Internal metrics (`pkg/internal/imetrics`, Prometheus reporter) -/

/-- `pipelineBufferLengths`: the hard-coded histogram buckets (the source
stores them as `[]float64` with these integral values). -/
def pipelineBufferLengths : List Nat := [0, 10, 20, 40, 80, 160, 320]

/-- `imetrics.PrometheusConfig`: only a port and a path — no bucket knob. -/
structure PrometheusConfig where
  Port : Int
  Path : String
deriving DecidableEq, Repr

/-- A Prometheus histogram: its bucket boundaries and the multiset of
observed values, in observation order (values are integral in every use
here). -/
structure Histogram where
  Buckets : List Nat
  Observations : List Int
deriving DecidableEq, Repr

/-- `prometheus.Histogram.Observe`. -/
def observe (h : Histogram) (v : Int) : Histogram :=
  { h with Observations := h.Observations ++ [v] }

/-- The `tracerFlushes` histogram built by `NewPrometheusReporter`: its
buckets are `pipelineBufferLengths`, whatever the configuration says. -/
def newTracerFlushes (_cfg : PrometheusConfig) : Histogram :=
  { Buckets := pipelineBufferLengths, Observations := [] }

/-- `(*PrometheusReporter).TracerFlush`: one `Observe(float64(len))` on the
`tracerFlushes` histogram. -/
def TracerFlush (h : Histogram) (len : Int) : Histogram :=
  observe h len

/-! ### Orchestrator operation sequences

For the process-lifetime invariants a run of the orchestrator is a fold of
operations over a system state holding the process-wide
`IntegrityModeOverride` flag and the tracer bookkeeping. -/

/-- The process-wide state: `common.IntegrityModeOverride` plus the tracer
state. -/
structure SysState where
  override : Bool
  pt : ProcessTracer

/-- One orchestrator operation. `init` is `Init`/`loadTracers`; the attach
operations carry the abstract outcomes of their probe attachments; `unlink`
carries the `Close` behaviour of the closables. -/
inductive Op where
  | init : Op
  | newExe (ino : Nat) (outs : List (AttachOutcome × AttachOutcome)) : Op
  | newExeInstance (ino : Nat) (outs : List AttachOutcome) : Op
  | unlink (closeErr : Nat → Bool) (ino : Nat) : Op

/-- Apply one operation. Only `init` (bundle loading) touches the
integrity-override flag; the attach and unlink paths never mention it, as
in the source. -/
def stepOp (progs : List ProgModel) (s : SysState) : Op → SysState
  | Op.init => { s with override := (loadTracersFlag progs s.override).1 }
  | Op.newExe ino outs => { s with pt := (NewExecutable outs s.pt ino).1 }
  | Op.newExeInstance ino outs => { s with pt := (NewExecutableInstance outs s.pt ino).1 }
  | Op.unlink closeErr ino => { s with pt := (UnlinkExecutable closeErr s.pt ino).1 }

/-- A whole run: fold the operations over the initial state. -/
def runOps (progs : List ProgModel) (s : SysState) (ops : List Op) : SysState :=
  ops.foldl (stepOp progs) s

end Beyla

/-! ## Helper lemmas -/

namespace Beyla

theorem closeCalls_append (a b : List Event) :
    closeCalls (a ++ b) = closeCalls a ++ closeCalls b := by
  simp [closeCalls]

theorem closeCalls_closeEvents (f : Nat → Bool) (cs : List Nat) :
    closeCalls (closeEvents f cs) = cs := by
  induction cs with
  | nil => rfl
  | cons c cs ih =>
    by_cases h : f c <;>
      simp [closeEvents, closeCalls, h] at ih ⊢ <;> exact ih

theorem closeCalls_unlinkLibEvents (n : Nat) (ms : List Nat) :
    closeCalls (unlinkLibEvents n ms) = [] := by
  rw [closeCalls, List.filterMap_eq_nil_iff]
  intro e he
  rw [unlinkLibEvents] at he
  obtain ⟨m, _, he⟩ := List.mem_flatMap.mp he
  obtain ⟨j, _, rfl⟩ := List.mem_map.mp he
  rfl

theorem lookup_mapErase (k : Nat) (m : List (Nat × Instr)) :
    (mapErase k m).lookup k = none := by
  induction m with
  | nil => rfl
  | cons kv m ih =>
    obtain ⟨a, b⟩ := kv
    by_cases h : a = k
    · simpa [mapErase, List.filter_cons, h] using ih
    · have h2 : (k == a) = false := beq_eq_false_iff_ne.mpr (Ne.symm h)
      simpa [mapErase, List.filter_cons, bne_iff_ne, h, List.lookup, h2] using ih

theorem count_closeEvents (f : Nat → Bool) (cs : List Nat) (j m : Nat) :
    (closeEvents f cs).count (Event.unlinkLib j m) = 0 := by
  induction cs with
  | nil => rfl
  | cons c cs ih =>
    by_cases h : f c <;> simp [closeEvents, h, List.count_cons, ih]

theorem count_range_eq (n j : Nat) :
    (List.range n).count j = if j < n then 1 else 0 := by
  by_cases h : j < n
  · rw [if_pos h]
    exact List.count_eq_one_of_mem (List.nodup_range n) (List.mem_range.mpr h)
  · rw [if_neg h]
    exact List.count_eq_zero.mpr (fun hmem => h (List.mem_range.mp hmem))

theorem count_unlinkLib_inner (n j m m' : Nat) :
    ((List.range n).map (fun j' => Event.unlinkLib j' m')).count (Event.unlinkLib j m) =
      if m' = m ∧ j < n then 1 else 0 := by
  by_cases hm : m' = m
  · subst hm
    have hinj : Function.Injective (fun j' => Event.unlinkLib j' m') := by
      intro a b hab
      cases hab
      rfl
    rw [List.count_map_of_injective _ _ hinj, count_range_eq]
    by_cases h : j < n <;> simp [h]
  · rw [if_neg (fun hc => hm hc.1)]
    refine List.count_eq_zero.mpr (fun hmem => ?_)
    obtain ⟨j', _, hj'⟩ := List.mem_map.mp hmem
    cases hj'
    exact hm rfl

theorem count_unlinkLibEvents (n j m : Nat) (ms : List Nat) :
    (unlinkLibEvents n ms).count (Event.unlinkLib j m) =
      ms.count m * (if j < n then 1 else 0) := by
  induction ms with
  | nil => simp [unlinkLibEvents]
  | cons m' ms ih =>
    rw [unlinkLibEvents, List.flatMap_cons, List.count_append]
    rw [unlinkLibEvents] at ih
    rw [ih, count_unlinkLib_inner, List.count_cons]
    by_cases hm : m' = m <;> by_cases hj : j < n <;>
      simp [hm, hj, Nat.add_mul, Nat.add_comm]

theorem mem_closeEvents_of_err (f : Nat → Bool) (cs : List Nat) (c : Nat)
    (hc : c ∈ cs) (hf : f c = true) :
    Event.closeErrLogged c ∈ closeEvents f cs := by
  induction cs with
  | nil => cases hc
  | cons c' cs ih =>
    rcases List.mem_cons.mp hc with h | h
    · subst h
      simp [closeEvents, hf]
    · by_cases h' : f c' <;> simp [closeEvents, h', ih h]

end Beyla

/-! ## Claim theorems -/

namespace Beyla

/-- C1 counterexample: for the inode `1` whose instrumenter recorded the
closables `[10, 20]` (appended in that order), `UnlinkExecutable` calls
`Close` on `10` first and `20` last — not in reverse insertion order
(`[20, 10]`), refuting the claim at this input. -/
theorem unlink_close_reverse_order_cex :
    closeCalls (UnlinkExecutable (fun _ => false)
        ⟨1, [(1, ⟨[10, 20], []⟩)]⟩ 1).2 = [10, 20] ∧
      ([10, 20] : List Nat) ≠ List.reverse [10, 20] := by
  constructor
  · decide
  · decide

/-- C1 (amended): for every inode present in the instrumentables map,
`UnlinkExecutable` releases all closables of that inode's instrumenter in
forward insertion order: if the closables list was appended in order
c1, ..., ck, then `Close` is called on c1 first and ck last. -/
theorem unlink_closes_in_insertion_order (f : Nat → Bool) (pt : ProcessTracer)
    (ino : Nat) (i : Instr) (h : pt.instrumentables.lookup ino = some i) :
    closeCalls (UnlinkExecutable f pt ino).2 = i.closables := by
  rw [UnlinkExecutable, h]
  rw [closeCalls_append, closeCalls_closeEvents, closeCalls_unlinkLibEvents,
    List.append_nil]

/-- C1 witness. -/
theorem unlink_closes_in_insertion_order_witness :
    closeCalls (UnlinkExecutable (fun _ => false)
        ⟨2, [(4, ⟨[3, 1, 2], [9]⟩)]⟩ 4).2 = [3, 1, 2] :=
  unlink_closes_in_insertion_order (fun _ => false) ⟨2, [(4, ⟨[3, 1, 2], [9]⟩)]⟩ 4
    ⟨[3, 1, 2], [9]⟩ (by decide)

/-- C7: for every inode present in the instrumentables map with recorded
module set `i.modules` (a Go set, hence without duplicates),
`UnlinkExecutable` calls `UnlinkInstrumentedLib(m)` on every loaded bundle
exactly once for each recorded module `m`, and afterwards the
instrumentables map no longer contains that inode. -/
theorem unlink_signals_modules_once (f : Nat → Bool) (pt : ProcessTracer)
    (ino : Nat) (i : Instr) (h : pt.instrumentables.lookup ino = some i)
    (hnd : i.modules.Nodup) :
    (∀ m ∈ i.modules, ∀ j < pt.numPrograms,
        ((UnlinkExecutable f pt ino).2).count (Event.unlinkLib j m) = 1) ∧
      ((UnlinkExecutable f pt ino).1).instrumentables.lookup ino = none := by
  rw [UnlinkExecutable, h]
  refine ⟨fun m hm j hj => ?_, lookup_mapErase ino pt.instrumentables⟩
  rw [List.count_append, count_closeEvents, count_unlinkLibEvents,
    List.count_eq_one_of_mem hnd hm, if_pos hj]

/-- C7 witness. -/
theorem unlink_signals_modules_once_witness :
    (7 : Nat) ∈ Instr.modules ⟨[1], [7, 8]⟩ ∧ (1 : Nat) < 2 ∧
      ((UnlinkExecutable (fun _ => false)
          ⟨2, [(5, ⟨[1], [7, 8]⟩)]⟩ 5).2).count (Event.unlinkLib 1 7) = 1 ∧
      ((UnlinkExecutable (fun _ => false)
          ⟨2, [(5, ⟨[1], [7, 8]⟩)]⟩ 5).1).instrumentables.lookup 5 = none := by
  have h := unlink_signals_modules_once (fun _ => false) ⟨2, [(5, ⟨[1], [7, 8]⟩)]⟩ 5
    ⟨[1], [7, 8]⟩ (by decide) (by decide)
  exact ⟨by decide, by decide, h.1 7 (by decide) 1 (by decide), h.2⟩

/-- C8: `UnlinkExecutable` on an inode absent from the instrumentables map
is a pure no-op apart from one warning log — it closes nothing, signals no
bundle and leaves the state unchanged — and since unlinking always leaves
the inode absent, a second `UnlinkExecutable` for the same inode is such a
no-op. (The embedding is a total function; no panic exists.) -/
theorem unlink_unknown_inode_noop :
    (∀ (f : Nat → Bool) (pt : ProcessTracer) (ino : Nat),
        pt.instrumentables.lookup ino = none →
          UnlinkExecutable f pt ino = (pt, [Event.warnUnknownUnlink ino])) ∧
      (∀ (f g : Nat → Bool) (pt : ProcessTracer) (ino : Nat),
        UnlinkExecutable g (UnlinkExecutable f pt ino).1 ino =
          ((UnlinkExecutable f pt ino).1, [Event.warnUnknownUnlink ino])) := by
  have base : ∀ (f : Nat → Bool) (pt : ProcessTracer) (ino : Nat),
      pt.instrumentables.lookup ino = none →
        UnlinkExecutable f pt ino = (pt, [Event.warnUnknownUnlink ino]) := by
    intro f pt ino h
    rw [UnlinkExecutable, h]
  refine ⟨base, fun f g pt ino => ?_⟩
  rcases hl : pt.instrumentables.lookup ino with _ | i
  · rw [base f pt ino hl]
    exact base g pt ino hl
  · apply base
    rw [UnlinkExecutable, hl]
    exact lookup_mapErase ino pt.instrumentables

/-- C8 witness. -/
theorem unlink_unknown_inode_noop_witness :
    UnlinkExecutable (fun _ => false) ⟨1, [(2, ⟨[6], []⟩)]⟩ 3 =
      (⟨1, [(2, ⟨[6], []⟩)]⟩, [Event.warnUnknownUnlink 3]) :=
  unlink_unknown_inode_noop.1 (fun _ => false) ⟨1, [(2, ⟨[6], []⟩)]⟩ 3 (by decide)

/-- C10: `UnlinkExecutable` tolerates release failures: whichever closables
fail to close (`f c = true`), every closable still gets its `Close` call
(in order), each failure is only logged, every recorded module is still
signalled to every bundle exactly once, and the inode entry is removed.
The Go function returns nothing, so no error can be returned. -/
theorem unlink_tolerates_close_errors (f : Nat → Bool) (pt : ProcessTracer)
    (ino : Nat) (i : Instr) (h : pt.instrumentables.lookup ino = some i)
    (hnd : i.modules.Nodup) :
    closeCalls (UnlinkExecutable f pt ino).2 = i.closables ∧
      (∀ c ∈ i.closables, f c = true →
        Event.closeErrLogged c ∈ (UnlinkExecutable f pt ino).2) ∧
      (∀ m ∈ i.modules, ∀ j < pt.numPrograms,
        ((UnlinkExecutable f pt ino).2).count (Event.unlinkLib j m) = 1) ∧
      ((UnlinkExecutable f pt ino).1).instrumentables.lookup ino = none := by
  rw [UnlinkExecutable, h]
  refine ⟨?_, fun c hc hf => ?_, fun m hm j hj => ?_,
    lookup_mapErase ino pt.instrumentables⟩
  · rw [closeCalls_append, closeCalls_closeEvents, closeCalls_unlinkLibEvents,
      List.append_nil]
  · exact List.mem_append_left _ (mem_closeEvents_of_err f i.closables c hc hf)
  · rw [List.count_append, count_closeEvents, count_unlinkLibEvents,
      List.count_eq_one_of_mem hnd hm, if_pos hj]

/-- C10 witness: closable `1` fails to close, closable `2` still gets
closed, the failure is logged, the module is signalled, the entry is
removed. -/
theorem unlink_tolerates_close_errors_witness :
    closeCalls (UnlinkExecutable (fun c => c == 1)
        ⟨1, [(9, ⟨[1, 2], [4]⟩)]⟩ 9).2 = [1, 2] ∧
      Event.closeErrLogged 1 ∈ (UnlinkExecutable (fun c => c == 1)
        ⟨1, [(9, ⟨[1, 2], [4]⟩)]⟩ 9).2 ∧
      ((UnlinkExecutable (fun c => c == 1)
        ⟨1, [(9, ⟨[1, 2], [4]⟩)]⟩ 9).2).count (Event.unlinkLib 0 4) = 1 ∧
      ((UnlinkExecutable (fun c => c == 1)
        ⟨1, [(9, ⟨[1, 2], [4]⟩)]⟩ 9).1).instrumentables.lookup 9 = none := by
  have h := unlink_tolerates_close_errors (fun c => c == 1)
    ⟨1, [(9, ⟨[1, 2], [4]⟩)]⟩ 9 ⟨[1, 2], [4]⟩ (by decide) (by decide)
  exact ⟨h.1, h.2.1 1 (by decide) (by decide), h.2.2.1 4 (by decide) 0 (by decide),
    h.2.2.2⟩

/-- C3 counterexample: on a fresh tracer, `NewExecutable` for inode `7`
appends release handle `5` during the first bundle's goprobes and then
fails in its uprobes. The error is returned, handle `5` is never closed by
`NewExecutable`, but the instrumenter is not stored in the map, so the
later `UnlinkExecutable(7)` only warns and releases nothing — refuting
"released only by a later unlink_executable for that inode". -/
theorem newExecutable_error_release_cex :
    (NewExecutable [(⟨[5], [], false⟩, ⟨[], [], true⟩)] ⟨1, []⟩ 7).2.1 = true ∧
      (NewExecutable [(⟨[5], [], false⟩, ⟨[], [], true⟩)] ⟨1, []⟩ 7).2.2.closables = [5] ∧
      (NewExecutable [(⟨[5], [], false⟩, ⟨[], [], true⟩)] ⟨1, []⟩ 7).1 = ⟨1, []⟩ ∧
      UnlinkExecutable (fun _ => false)
          (NewExecutable [(⟨[5], [], false⟩, ⟨[], [], true⟩)] ⟨1, []⟩ 7).1 7 =
        (⟨1, []⟩, [Event.warnUnknownUnlink 7]) := by
  refine ⟨?_, ?_, ?_, ?_⟩ <;> decide

/-- C3 (amended): if `NewExecutable` returns an error after some
attachments succeeded, the already-appended release handles are not closed
by `NewExecutable`; however the instrumenter is not registered, the
instrumentables map is left unchanged, and — when the inode was not
already registered — a later `UnlinkExecutable` for that inode is a
warning no-op that releases nothing. -/
theorem newExecutable_error_keeps_map_unchanged (f : Nat → Bool)
    (outs : List (AttachOutcome × AttachOutcome)) (pt : ProcessTracer) (ino : Nat)
    (herr : (NewExecutable outs pt ino).2.1 = true)
    (habs : pt.instrumentables.lookup ino = none) :
    (NewExecutable outs pt ino).1 = pt ∧
      UnlinkExecutable f (NewExecutable outs pt ino).1 ino =
        ((NewExecutable outs pt ino).1, [Event.warnUnknownUnlink ino]) := by
  rcases hfail : (attachLoop ⟨[], []⟩ outs).2 with _ | _
  · exfalso
    rw [NewExecutable] at herr
    simp only [hfail, if_false, Bool.false_eq_true] at herr
  · have hpt : (NewExecutable outs pt ino).1 = pt := by
      rw [NewExecutable]
      simp only [hfail, if_true]
    refine ⟨hpt, ?_⟩
    rw [hpt, UnlinkExecutable, habs]

/-- C3 witness. -/
theorem newExecutable_error_keeps_map_unchanged_witness :
    (NewExecutable [(⟨[2, 3], [6], false⟩, ⟨[4], [], true⟩)] ⟨2, [(1, ⟨[], []⟩)]⟩ 8).1 =
        ⟨2, [(1, ⟨[], []⟩)]⟩ ∧
      UnlinkExecutable (fun _ => true)
          (NewExecutable [(⟨[2, 3], [6], false⟩, ⟨[4], [], true⟩)]
            ⟨2, [(1, ⟨[], []⟩)]⟩ 8).1 8 =
        ((NewExecutable [(⟨[2, 3], [6], false⟩, ⟨[4], [], true⟩)]
            ⟨2, [(1, ⟨[], []⟩)]⟩ 8).1, [Event.warnUnknownUnlink 8]) :=
  newExecutable_error_keeps_map_unchanged (fun _ => true)
    [(⟨[2, 3], [6], false⟩, ⟨[4], [], true⟩)] ⟨2, [(1, ⟨[], []⟩)]⟩ 8
    (by decide) (by decide)

/-- C2: when a bundle's first kernel load fails with a diagnostic whose
text contains `unknown func bpf_probe_write_user`, `loadTracers` sets the
process-wide integrity-override flag to true and retries the load of that
bundle exactly once (2 load attempts in total); a failure of the retry —
whether in `loadSpec` or in `LoadAndAssign` — is returned as the error.
Every other load failure — a `LoadAndAssign` diagnostic without that text,
or a `loadSpec` failure — is returned with no retry (1 load attempt) and
the flag untouched. -/
theorem loadTracer_retry_semantics (p : ProgModel) (ov : Bool) :
    (∀ s e, loadSpecP p ov = Except.ok s → p.assign s = Except.error e →
      (strContains e helperMsg = true →
          (loadOneTracer p ov).1 = true ∧ (loadOneTracer p ov).2.2 = 2 ∧
          (∀ e2, loadSpecP p true = Except.error e2 →
            (loadOneTracer p ov).2.1 =
              Except.error ("loading and assigning BPF objects: " ++ e2)) ∧
          (∀ s2 e2, loadSpecP p true = Except.ok s2 → p.assign s2 = Except.error e2 →
            (loadOneTracer p ov).2.1 =
              Except.error ("loading and assigning BPF objects: " ++ e2))) ∧
        (strContains e helperMsg = false →
          loadOneTracer p ov =
            (ov, Except.error ("loading and assigning BPF objects: " ++ e), 1))) ∧
      (∀ e, loadSpecP p ov = Except.error e →
        loadOneTracer p ov = (ov, Except.error e, 1)) := by
  refine ⟨fun s e hspec hassign => ⟨?_, ?_⟩, fun e hspe => ?_⟩
  case refine_3 => simp only [loadOneTracer, hspe]
  · intro hc
    rcases h3 : loadSpecP p true with e2 | s2
    · simp only [loadOneTracer, hspec, hassign, hc, if_true, h3]
      refine ⟨trivial, trivial, fun e2' he2' => ?_, fun s2' e2' hs2' _ => ?_⟩
      · cases he2'
        trivial
      · cases hs2'
    · rcases h4 : p.assign s2 with e3 | u
      · simp only [loadOneTracer, hspec, hassign, hc, if_true, h3, h4]
        refine ⟨trivial, trivial, fun e2' he2' => ?_, fun s2' e2' hs2' ha2' => ?_⟩
        · cases he2'
        · cases hs2'
          rw [h4] at ha2'
          cases ha2'
          trivial
      · simp only [loadOneTracer, hspec, hassign, hc, if_true, h3, h4]
        refine ⟨trivial, trivial, fun e2' he2' => ?_, fun s2' e2' hs2' ha2' => ?_⟩
        · cases he2'
        · cases hs2'
          rw [h4] at ha2'
          cases ha2'
  · intro hc
    simp only [loadOneTracer, hspec, hassign, hc, Bool.false_eq_true, if_false]

/-- A concrete bundle for the C2 witness: the preferred variant is spec `1`
and the fallback variant spec `2`; loading spec `1` into the kernel fails
with the missing-helper diagnostic, loading spec `2` fails with another
diagnostic. -/
def progMissingHelper : ProgModel where
  load := fun ov => Except.ok (if ov then 2 else 1)
  rewrite := fun _ => Except.ok ()
  assign := fun s =>
    if s = 1 then Except.error "program load: unknown func bpf_probe_write_user#483"
    else Except.error "verifier rejected"

/-- C2 witness. -/
theorem loadTracer_retry_semantics_witness :
    (loadOneTracer progMissingHelper false).1 = true ∧
      (loadOneTracer progMissingHelper false).2.2 = 2 ∧
      (loadOneTracer progMissingHelper false).2.1 =
        Except.error "loading and assigning BPF objects: verifier rejected" := by
  have h := ((loadTracer_retry_semantics progMissingHelper false).1 1
    "program load: unknown func bpf_probe_write_user#483" rfl rfl).1 (by decide)
  exact ⟨h.1, h.2.1, h.2.2.2 2 "verifier rejected" rfl rfl⟩

/-- After any single load, the flag is either untouched or was set to
`true` on the missing-helper fallback path — the only write site. -/
theorem loadOne_flag_write_site (p : ProgModel) (ov : Bool) :
    (loadOneTracer p ov).1 = ov ∨
      ((loadOneTracer p ov).1 = true ∧ ∃ s e, loadSpecP p ov = Except.ok s ∧
        p.assign s = Except.error e ∧ strContains e helperMsg = true) := by
  rcases h1 : loadSpecP p ov with e | s
  · left
    simp only [loadOneTracer, h1]
  · rcases h2 : p.assign s with e | u
    · by_cases hc : strContains e helperMsg
      · right
        refine ⟨?_, s, e, rfl, h2, hc⟩
        rcases h3 : loadSpecP p true with e2 | s2
        · simp only [loadOneTracer, h1, h2, hc, if_true, h3]
        · rcases h4 : p.assign s2 with e3 | u <;>
            simp only [loadOneTracer, h1, h2, hc, if_true, h3, h4]
      · left
        simp only [loadOneTracer, h1, h2, hc, Bool.false_eq_true, if_false]
    · left
      simp only [loadOneTracer, h1, h2]

theorem loadOne_flag_stays_true (p : ProgModel) : (loadOneTracer p true).1 = true := by
  rcases loadOne_flag_write_site p true with h | h
  · exact h
  · exact h.1

theorem loadTracersFlag_stays_true (progs : List ProgModel) :
    (loadTracersFlag progs true).1 = true := by
  induction progs with
  | nil => rfl
  | cons p ps ih =>
    have hov := loadOne_flag_stays_true p
    simp only [loadTracersFlag]
    rcases hres : (loadOneTracer p true).2.1 with e | u
    · simp only [hres, hov]
    · simp only [hres, hov]
      exact ih

theorem stepOp_override_mono (progs : List ProgModel) (s : SysState) (op : Op)
    (h : s.override = true) : (stepOp progs s op).override = true := by
  cases op with
  | init =>
    show (loadTracersFlag progs s.override).1 = true
    rw [h]
    exact loadTracersFlag_stays_true progs
  | newExe ino outs => exact h
  | newExeInstance ino outs => exact h
  | unlink f ino => exact h

/-- C6: the integrity-override flag is monotonic over every sequence of
orchestrator operations — once `true` it stays `true` — non-load
operations (attaches, unlinks) never write it, and within a load it is
written only on the missing-helper fallback path. -/
theorem integrity_override_monotonic (progs : List ProgModel) :
    (∀ (s : SysState) (ops : List Op), s.override = true →
        (runOps progs s ops).override = true) ∧
      (∀ (s : SysState) (op : Op), op ≠ Op.init →
        (stepOp progs s op).override = s.override) ∧
      (∀ (p : ProgModel) (ov : Bool),
        (loadOneTracer p ov).1 = ov ∨
          ((loadOneTracer p ov).1 = true ∧ ∃ sp e, loadSpecP p ov = Except.ok sp ∧
            p.assign sp = Except.error e ∧ strContains e helperMsg = true)) := by
  refine ⟨?_, ?_, fun p ov => loadOne_flag_write_site p ov⟩
  · intro s ops
    induction ops generalizing s with
    | nil => exact fun h => h
    | cons op ops ih =>
      intro h
      exact ih (stepOp progs s op) (stepOp_override_mono progs s op h)
  · intro s op hne
    cases op with
    | init => exact absurd rfl hne
    | newExe ino outs => rfl
    | newExeInstance ino outs => rfl
    | unlink f ino => rfl

/-- C6 witness: a run that starts with the flag set and performs an attach,
an unlink and a load keeps the flag set; an unlink step does not write the
flag. -/
theorem integrity_override_monotonic_witness :
    (runOps [] ⟨true, ⟨1, []⟩⟩
        [Op.newExe 4 [], Op.unlink (fun _ => false) 4, Op.init]).override = true ∧
      (stepOp [] ⟨false, ⟨1, []⟩⟩ (Op.unlink (fun _ => false) 4)).override = false :=
  ⟨(integrity_override_monotonic []).1 ⟨true, ⟨1, []⟩⟩
      [Op.newExe 4 [], Op.unlink (fun _ => false) 4, Op.init] rfl,
    (integrity_override_monotonic []).2.1 ⟨false, ⟨1, []⟩⟩
      (Op.unlink (fun _ => false) 4) (fun h => Op.noConfusion h)⟩

theorem lookup_cons_of_ne {β : Type} (k : String) (v : β) (rest : List (String × β))
    (a : String) (h : (a == k) = false) :
    ((k, v) :: rest).lookup a = rest.lookup a := by
  simp [List.lookup, h]

theorem lookup_append_right {β : Type} (l₁ l₂ : List (String × β)) (a : String)
    (h : ∀ kv ∈ l₁, kv.1 ≠ a) : (l₁ ++ l₂).lookup a = l₂.lookup a := by
  induction l₁ with
  | nil => rfl
  | cons kv l ih =>
    obtain ⟨k, v⟩ := kv
    have hk : (a == k) = false :=
      beq_eq_false_iff_ne.mpr (Ne.symm (h (k, v) (List.mem_cons_self _ _)))
    simp only [List.cons_append, List.lookup, hk]
    exact ih (fun kv hkv => h kv (List.mem_cons_of_mem _ hkv))

theorem lookup_map_pair {β : Type} (l : List String) (g : String → β) (s : String)
    (h : s ∈ l) : (l.map (fun t => (t, g t))).lookup s = some (g s) := by
  induction l with
  | nil => cases h
  | cons t l ih =>
    by_cases ht : s = t
    · subst ht
      simp [List.lookup]
    · have hb : (s == t) = false := beq_eq_false_iff_ne.mpr ht
      simp only [List.map_cons, List.lookup, hb]
      exact ih ((List.mem_cons.mp h).resolve_left ht)

/-- C4: in the constants table built by `Constants`, every optional key
that is absent from the Offset Provider's field map is bound to the
all-ones 64-bit sentinel `0xFFFFFFFFFFFFFFFF`; a required key that is
absent is bound to Go `nil`, which makes the constant rewrite — and hence
loading — fail. -/
theorem constants_optional_sentinel_required_fatal (w : Nat)
    (field : String → Option Nat) (s : String) :
    (s ∈ optionalKeys → field s = none →
        (Constants w field).lookup s = some (some sentinel)) ∧
      (s ∈ requiredKeys → field s = none →
        loadSpecConstants w field =
          Except.error "rewriting BPF constants definition: missing required constant") := by
  constructor
  · intro hopt hnone
    have hw : s ≠ "wakeup_data_bytes" := by
      intro he
      exact (by decide : ("wakeup_data_bytes" : String) ∉ optionalKeys) (he ▸ hopt)
    have hb : (s == "wakeup_data_bytes") = false := beq_eq_false_iff_ne.mpr hw
    have hdisj : ∀ x ∈ optionalKeys, x ∉ requiredKeys := by decide
    rw [Constants, lookup_cons_of_ne _ _ _ _ hb, lookup_append_right]
    · rw [lookup_map_pair _ _ _ hopt, hnone]
    · intro kv hkv
      obtain ⟨t, ht, rfl⟩ := List.mem_map.mp hkv
      intro he
      exact hdisj s hopt (he ▸ ht)
  · intro hreq hnone
    have hmem : (s, (none : Option Nat)) ∈ Constants w field := by
      rw [Constants]
      refine List.mem_cons_of_mem _ (List.mem_append_left _ ?_)
      have h' : (s, field s) ∈ requiredKeys.map (fun t => (t, field t)) :=
        List.mem_map.mpr ⟨s, hreq, rfl⟩
      rwa [hnone] at h'
    have hall : rewriteConstantsOk (Constants w field) = false := by
      rw [Bool.eq_false_iff]
      intro hcontra
      have := List.all_eq_true.mp hcontra (s, none) hmem
      simp at this
    rw [loadSpecConstants, hall]
    rfl

/-- C4 witness: with every offset absent, the optional key
`cc_next_stream_id_pos` gets the sentinel and the required key
`url_ptr_pos` makes loading fail. -/
theorem constants_optional_sentinel_required_fatal_witness :
    (Constants 1 (fun _ => none)).lookup "cc_next_stream_id_pos" =
        some (some sentinel) ∧
      loadSpecConstants 1 (fun _ => none) =
        Except.error "rewriting BPF constants definition: missing required constant" :=
  ⟨(constants_optional_sentinel_required_fatal 1 (fun _ => none)
      "cc_next_stream_id_pos").1 (by decide) rfl,
    (constants_optional_sentinel_required_fatal 1 (fun _ => none)
      "url_ptr_pos").2 (by decide) rfl⟩

/-- C5: once the integrity-override flag is set, the goprobe table of every
subsequently queried Go tracer bundle has no entry for
`net/http.Header.writeSubset` or either `Framer.WriteHeaders` symbol —
whatever the kernel capability probe says — and `Load` selects the
non-context-propagation artifact (`bpf_debug` or `bpf`). -/
theorem override_removes_context_propagation (kernelSupports bpfDebug : Bool) :
    (GoProbes true kernelSupports).lookup "net/http.Header.writeSubset" = none ∧
      (GoProbes true kernelSupports).lookup
        "golang.org/x/net/http2.(*Framer).WriteHeaders" = none ∧
      (GoProbes true kernelSupports).lookup
        "net/http.(*http2Framer).WriteHeaders" = none ∧
      LoadChoice true kernelSupports bpfDebug =
        (if bpfDebug then GoTracerArtifact.bpf_debug else GoTracerArtifact.bpf) := by
  have hs : supportsContextPropagation true kernelSupports = false := by
    simp [supportsContextPropagation]
  refine ⟨?_, ?_, ?_, ?_⟩
  · rw [GoProbes, hs]
    decide
  · rw [GoProbes, hs]
    decide
  · rw [GoProbes, hs]
    decide
  · rw [LoadChoice, hs]
    simp

/-- C9: `TracerFlush(n)` records exactly one observation with value `n` on
the batch-length histogram, whose buckets are the hard-coded
`{0, 10, 20, 40, 80, 160, 320}` for every configuration — the
configuration has no field that could override them. -/
theorem tracerFlush_observation_and_buckets (cfg cfg' : PrometheusConfig)
    (h : Histogram) (n : Int) :
    TracerFlush h n = { h with Observations := h.Observations ++ [n] } ∧
      (newTracerFlushes cfg).Buckets = [0, 10, 20, 40, 80, 160, 320] ∧
      newTracerFlushes cfg = newTracerFlushes cfg' :=
  ⟨rfl, rfl, rfl⟩

end Beyla
